import Mathlib

/-!
Verification model of the flight-and-hotel-booking repository:
the document-creation layer (src/lib/db/createOperationDB.js) and the
signup workflow (signUpAction / validateSignupFormData).
-/

namespace Booking

/-- ASCII whitespace as stripped by JavaScript String.prototype.trim
(modelling the common cases: space, tab, LF, CR). -/
def isWS (c : Char) : Bool :=
  c.toNat = 32 || c.toNat = 9 || c.toNat = 10 || c.toNat = 13

/-- JavaScript String.prototype.trim on the character list of a string. -/
def trimL (l : List Char) : List Char :=
  ((l.dropWhile isWS).reverse.dropWhile isWS).reverse

/-- Modelled from the spec: the `capitalize` helper imported from
src/lib/utils (that file is not under src/); the spec says entity names
are resolved by "trimming whitespace and capitalizing the first letter". -/
def capL : List Char → List Char
  | [] => []
  | c :: cs => c.toUpper :: cs

/-- Lines 36-38 of createOperationDB.js: `capitalize(modelName.trim())`
followed by `processedModelName[0].toUpperCase() + processedModelName.slice(1)`.
`none` models the TypeError thrown when `[0]` of the empty string is
`undefined` and `.toUpperCase()` is called on it. -/
def normalizeL (l : List Char) : Option (List Char) :=
  match capL (trimL l) with
  | [] => none
  | c :: cs => some (c.toUpper :: cs)

def normalizeModelName (s : String) : Option String :=
  (normalizeL s.data).map String.mk

/-- createManyDocs' name processing (line 84): only
`capitalize(modelName.trim())`, with no second character indexing. -/
def capName (s : String) : String :=
  String.mk (capL (trimL s.data))

/-- A schema registry: maps a model name to the schema's declared field
names in declaration order (`Object.keys(dataModels[name].schema.obj)`),
or `none` when `dataModels[name]` is undefined. -/
def Registry : Type := String → Option (List String)

/-- Modelled from the spec: the concrete model registry built by
src/lib/db/models (not included under src/).  The spec's glossary names
the user, account and booking entities; the user and account fields are
the ones the signup workflow stores. -/
def sampleModels : Registry := fun n =>
  if n = "User" then some ["firstName", "lastName", "email", "phone"]
  else if n = "Account" then
    some ["userId", "provider", "providerAccountId", "type", "password"]
  else if n = "Booking" then some ["userId", "flights", "hotels"]
  else none

/-- The `modelName` argument as received by validatorOneDoc: either a
string or some non-string JavaScript value. -/
inductive JSName where
  | str (s : String)
  | nonString
deriving DecidableEq

/-- The `data` argument: JavaScript distinguishes null, arrays, other
non-objects, and plain objects, whose own keys `Object.keys` lists in
insertion order. -/
inductive JSData where
  | null
  | array
  | nonObject
  | obj (keys : List String)
deriving DecidableEq

/-- Is `data` a non-null, non-array object? -/
def JSData.isObjLike : JSData → Bool
  | .obj _ => true
  | _ => false

/-- Result of validatorOneDoc: one of the four structured Error values,
the success object, a field-validation error from `Model.validate`, or an
escaped TypeError. -/
inductive VResult where
  | thrown
  | errNameNotString
  | errUnknownModel (name : String)
  | errDataNotObject
  | errExtraKeys (msg : String)
  | errFieldValidation
  | ok (modelName : String) (keys : List String)
deriving DecidableEq

/-- The message built at lines 57-63 of createOperationDB.js. -/
def extraKeysMsg (extraKeys modelSchemaKeys : List String) : String :=
  "The following keys are not allowed: " ++ String.intercalate ", " extraKeys ++
    ", Only " ++ String.intercalate ", " modelSchemaKeys ++ " are allowed"

/-- Modelled from the spec: `findOnlyUniqueElements` from src/lib/utils
(not under src/), called as `findOnlyUniqueElements(dataKeys, allowed,
allowed)`: per the spec it "computes the set of record keys not present
in schema fields ∪ identifier field", offending keys in input order. -/
def findExtraKeys (dataKeys allowed : List String) : List String :=
  dataKeys.filter (fun k => !(allowed.contains k))

/-- validatorOneDoc (lines 29-74).  `fieldCheck` abstracts the external
mongoose `Model.validate` collaborator (schema-rule validation). -/
def validatorOneDoc (models : Registry)
    (fieldCheck : String → List String → Bool)
    (modelName : JSName) (data : JSData) : VResult :=
  match modelName with
  | .nonString => .errNameNotString
  | .str s =>
    match normalizeModelName s with
    | none => .thrown
    | some pname =>
      match models pname with
      | none => .errUnknownModel pname
      | some modelSchemaKeys =>
        match data with
        | .obj dataKeys =>
          let extraKeys := findExtraKeys dataKeys (modelSchemaKeys ++ ["_id"])
          if extraKeys.isEmpty then
            if fieldCheck pname dataKeys then .ok pname dataKeys
            else .errFieldValidation
          else .errExtraKeys (extraKeysMsg extraKeys modelSchemaKeys)
        | _ => .errDataNotObject

/-- The name-normalization-plus-registry-lookup step of validatorOneDoc
(lines 36-41): `none` models the thrown TypeError on an empty normalized
name, `some r` the value of `dataModels[processedModelName]`. -/
def lookupSchema (models : Registry) (s : String) : Option (Option (List String)) :=
  (normalizeModelName s).map models

/-- Result of createOneDoc (lines 15-27): the validator's Error value is
thrown to the caller, a TypeError escapes as-is, and otherwise the record
is saved via the storage collaborator (`saveOk` abstracts `doc.save()`). -/
inductive CreateOneResult where
  | threwValidatorError (e : VResult)
  | threwException
  | saved (modelName : String) (keys : List String)
  | threwSaveError
deriving DecidableEq

def createOneDoc (models : Registry)
    (fieldCheck : String → List String → Bool)
    (saveOk : String → List String → Bool)
    (modelName : JSName) (data : JSData) : CreateOneResult :=
  match validatorOneDoc models fieldCheck modelName data with
  | .thrown => .threwException
  | .ok pname keys =>
    if saveOk pname keys then .saved pname keys else .threwSaveError
  | e => .threwValidatorError e

/-- One `insertOne` operation of the bulkWrite request (lines 88-90). -/
structure InsertOneOp (α : Type) where
  document : α
deriving DecidableEq

/-- A call issued to the storage collaborator by createManyDocs. -/
inductive BulkEvent (α : Type) where
  | bulkWrite (modelName : String) (ops : List (InsertOneOp α))
deriving DecidableEq

inductive BulkOutcome where
  | threw
  | ok (ids : List String)
deriving DecidableEq

/-- createManyDocs (lines 83-98): normalizes the name, wraps each document
in an insertOne operation, issues one bulkWrite to the storage
collaborator (`bulk`), and maps the reported inserted ids to strings (ids
are abstracted as naturals, `Nat.repr` standing for `id.toString()`).  An
unresolved model name makes `dataModels[modelName].bulkWrite` throw before
any storage call; a failed bulkWrite is logged and rethrown.  The second
component is the trace of storage calls issued. -/
def createManyDocs {α : Type} (models : Registry)
    (bulk : String → List (InsertOneOp α) → Option (List Nat))
    (modelName : String) (dataArr : List α) :
    BulkOutcome × List (BulkEvent α) :=
  let name := capName modelName
  match models name with
  | none => (.threw, [])
  | some _ =>
    let bulkOperations := dataArr.map (fun doc => InsertOneOp.mk doc)
    match bulk name bulkOperations with
    | none => (.threw, [.bulkWrite name bulkOperations])
    | some insertedIds =>
      (.ok (insertedIds.map Nat.repr), [.bulkWrite name bulkOperations])

/-- A JSON value inside the decoded phone object, abstracted to what the
code inspects: strings are kept, any other value is reduced to its
JavaScript truthiness. -/
inductive JVal where
  | jstr (s : String)
  | jother (truthy : Bool)
deriving DecidableEq

/-- JavaScript truthiness, as used by `Object.values(p).some(Boolean)`. -/
def JVal.truthy : JVal → Bool
  | .jstr s => !s.isEmpty
  | .jother b => b

/-- The phone form field at the JSON boundary (isValidJSON from
src/lib/utils and the JSON.parse builtin are modelled at the boundary):
the field is either absent from the form, present but not valid JSON, or
parses to a JSON object with the given key-value pairs (JSON objects have
distinct keys). -/
inductive PhoneField where
  | absent
  | notJSON
  | jsonObj (fields : List (String × JVal))
deriving DecidableEq

/-- `Object.fromEntries(formData)` restricted to the fields the signup
schema declares (zod object parsing strips unknown keys); a `none` field
is absent from the submission. -/
structure SignupForm where
  email : Option String
  password : Option String
  confirmPassword : Option String
  firstname : Option String
  lastname : Option String
  acceptTerms : Option String
  phone : PhoneField
deriving DecidableEq

/-- JavaScript regex test for an unanchored literal pattern such as /on/:
does `pat` occur as a contiguous substring? -/
def containsSub (pat : List Char) : List Char → Bool
  | [] => pat.isEmpty
  | c :: rest => pat.isPrefixOf (c :: rest) || containsSub pat rest

def splitOnC (sep : Char) : List Char → List (List Char)
  | [] => [[]]
  | c :: rest =>
    let r := splitOnC sep rest
    if c = sep then [] :: r
    else
      match r with
      | [] => [[c]]
      | h :: t => (c :: h) :: t

/-- Modelled from the zod library (external collaborator): an
approximation of the `z.string().email()` format check — exactly one @,
a non-empty local part, and a dot-separated domain whose labels are
non-empty, with a final label of at least two characters. -/
def validEmail (l : List Char) : Bool :=
  match splitOnC '@' l with
  | [loc, dom] =>
    !loc.isEmpty &&
      (let segs := splitOnC '.' dom
       decide (2 ≤ segs.length) && segs.all (fun seg => !seg.isEmpty) &&
         (match segs.getLast? with
          | some lastSeg => decide (2 ≤ lastSeg.length)
          | none => false))
  | _ => false

/-- Issues of the email field (line 112): `z.string().trim().min(1,
"Email is required").email("Invalid email address")`; a missing field is
a "Required" invalid-type issue; zod string checks all run and each
failing check contributes one issue. -/
def emailIssues (f : SignupForm) : List (String × String) :=
  match f.email with
  | none => [("email", "Required")]
  | some s =>
    let t := trimL s.data
    (if t.isEmpty then [("email", "Email is required")] else []) ++
      (if validEmail t then [] else [("email", "Invalid email address")])

/-- Line 113: `z.string().min(8, "Password must be at least 8 characters")`. -/
def passwordIssues (f : SignupForm) : List (String × String) :=
  match f.password with
  | none => [("password", "Required")]
  | some s =>
    if s.length < 8 then
      [("password", "Password must be at least 8 characters")]
    else []

/-- Line 114: `z.string().min(1, "Confirm password is required")`. -/
def confirmPasswordIssues (f : SignupForm) : List (String × String) :=
  match f.confirmPassword with
  | none => [("confirmPassword", "Required")]
  | some s =>
    if s.length < 1 then [("confirmPassword", "Confirm password is required")]
    else []

/-- Line 115: `z.string().trim().min(1, "First name is required")`. -/
def firstnameIssues (f : SignupForm) : List (String × String) :=
  match f.firstname with
  | none => [("firstname", "Required")]
  | some s =>
    if (trimL s.data).isEmpty then [("firstname", "First name is required")]
    else []

/-- Line 116: `z.string().trim().min(1, "Last name is required")`. -/
def lastnameIssues (f : SignupForm) : List (String × String) :=
  match f.lastname with
  | none => [("lastname", "Required")]
  | some s =>
    if (trimL s.data).isEmpty then [("lastname", "Last name is required")]
    else []

/-- Line 117: `z.string().regex(/on/, "You must accept the terms and
conditions")` — the regex is unanchored. -/
def acceptTermsIssues (f : SignupForm) : List (String × String) :=
  match f.acceptTerms with
  | none => [("acceptTerms", "Required")]
  | some s =>
    if containsSub ['o', 'n'] s.data then []
    else [("acceptTerms", "You must accept the terms and conditions")]

/-- The phone transform (lines 121-130): an absent field, invalid JSON,
or a parsed object none of whose values is truthy decodes to `undefined`;
otherwise the parsed object is kept. -/
def decodePhone : PhoneField → Option (List (String × JVal))
  | .absent => none
  | .notJSON => none
  | .jsonObj fields =>
    if fields.any (fun kv => kv.2.truthy) then some fields else none

/-- The phone object after phoneSchema validation: trimmed number and
dial code strings. -/
structure PhoneOut where
  number : String
  dialCode : String
deriving DecidableEq

def lookupJ (k : String) (l : List (String × JVal)) : Option JVal :=
  (l.find? (fun kv => kv.1 == k)).map (fun kv => kv.2)

/-- phoneSchema's number field (line 106): `z.string().trim().regex(/^\d+$/,
"Invalid phone number. Only numbers are allowed")`.  Issues sit under the
phone path (`issue.path[0]` is "phone"). -/
def phoneNumberCheck (fields : List (String × JVal)) :
    List (String × String) × Option String :=
  match lookupJ "number" fields with
  | none => ([("phone", "Required")], none)
  | some (.jother _) => ([("phone", "Expected string")], none)
  | some (.jstr s) =>
    let t := trimL s.data
    if !t.isEmpty && t.all Char.isDigit then ([], some (String.mk t))
    else ([("phone", "Invalid phone number. Only numbers are allowed")], none)

/-- phoneSchema's dialCode field (line 107): `z.string().trim().min(1,
"Dial code is required")`. -/
def phoneDialCheck (fields : List (String × JVal)) :
    List (String × String) × Option String :=
  match lookupJ "dialCode" fields with
  | none => ([("phone", "Required")], none)
  | some (.jother _) => ([("phone", "Expected string")], none)
  | some (.jstr s) =>
    let t := trimL s.data
    if t.isEmpty then ([("phone", "Dial code is required")], none)
    else ([], some (String.mk t))

/-- The whole phone pipeline (lines 118-131): decode, then
`.pipe(phoneSchema.optional())`. -/
def phoneParse (f : SignupForm) : List (String × String) × Option PhoneOut :=
  match decodePhone f.phone with
  | none => ([], none)
  | some fields =>
    let n := phoneNumberCheck fields
    let d := phoneDialCheck fields
    match n.2, d.2 with
    | some ns, some ds => (n.1 ++ d.1, some (PhoneOut.mk ns ds))
    | _, _ => (n.1 ++ d.1, none)

/-- The issues of the six non-phone fields, in schema declaration order. -/
def nonPhoneIssues (f : SignupForm) : List (String × String) :=
  emailIssues f ++ passwordIssues f ++ confirmPasswordIssues f ++
    firstnameIssues f ++ lastnameIssues f ++ acceptTermsIssues f

/-- All field issues of signupSchema's base object, in declaration order. -/
def baseIssues (f : SignupForm) : List (String × String) :=
  nonPhoneIssues f ++ (phoneParse f).1

/-- The parsed output of signupSchema on success: trimmed fields where the
schema declares `.trim()`, raw fields elsewhere. -/
structure SignupData where
  email : String
  password : String
  confirmPassword : String
  firstname : String
  lastname : String
  acceptTerms : String
  phone : Option PhoneOut
deriving DecidableEq

def signupOutput (f : SignupForm) : SignupData :=
  { email := String.mk (trimL (f.email.getD "").data)
    password := f.password.getD ""
    confirmPassword := f.confirmPassword.getD ""
    firstname := String.mk (trimL (f.firstname.getD "").data)
    lastname := String.mk (trimL (f.lastname.getD "").data)
    acceptTerms := f.acceptTerms.getD ""
    phone := (phoneParse f).2 }

inductive ParseResult where
  | failure (issues : List (String × String))
  | success (data : SignupData)
deriving DecidableEq

/-- Did the decoded phone object abort its parse?  Inside phoneSchema a
missing key or a non-string value is an invalid_type abort, while a
failing trim/min/regex check only marks the parse dirty. -/
def phoneFieldAborted (fields : List (String × JVal)) : Bool :=
  (match lookupJ "number" fields with
   | some (.jstr _) => false
   | _ => true) ||
  (match lookupJ "dialCode" fields with
   | some (.jstr _) => false
   | _ => true)

/-- Did the base object parse abort?  In zod v3 a missing required field
(invalid_type) aborts the object parse, and an aborted phone pipeline
aborts the outer object as well; a present string field that merely
fails a min/email/regex check leaves the parse dirty, not aborted. -/
def anyAborted (f : SignupForm) : Bool :=
  f.email.isNone || f.password.isNone || f.confirmPassword.isNone ||
    f.firstname.isNone || f.lastname.isNone || f.acceptTerms.isNone ||
    (match decodePhone f.phone with
     | none => false
     | some fields => phoneFieldAborted fields)

/-- The issue the `.refine` password-equality check (lines 133-136)
appends when it runs and fails. -/
def refineIssues (f : SignupForm) : List (String × String) :=
  if (signupOutput f).password = (signupOutput f).confirmPassword then []
  else [("confirmPassword", "Passwords do not match")]

/-- `signupSchema.safeParse`: zod collects the issues of every field,
then runs the `.refine` check only when the base parse was not aborted —
a missing field aborts and skips the refinement, while a present field
that failed a string check leaves the parse dirty and the refinement
still runs, appending its confirmPassword issue after the field issues. -/
def signupSafeParse (f : SignupForm) : ParseResult :=
  let issues := baseIssues f
  if anyAborted f then .failure issues
  else
    let issues2 := issues ++ refineIssues f
    if issues2.isEmpty then .success (signupOutput f) else .failure issues2

inductive ValidationResult where
  | failure (errors : List (String × String))
  | success (data : SignupData)
deriving DecidableEq

/-- `errors[key] = msg` on a JS object kept as an association list: a
later assignment to an existing key overwrites in place, a new key is
appended (JS objects preserve first-insertion key order). -/
def setKey : List (String × String) → String → String → List (String × String)
  | [], k, v => [(k, v)]
  | (k2, v2) :: rest, k, v =>
    if k2 = k then (k2, v) :: rest else (k2, v2) :: setKey rest k v

/-- Lines 141-146: fold the issue list into the per-field error object via
`errors[issue.path[0]] = issue.message`. -/
def foldIssues (issues : List (String × String)) : List (String × String) :=
  issues.foldl (fun m kv => setKey m kv.1 kv.2) []

/-- validateSignupFormData (lines 138-150). -/
def validateSignupFormData (f : SignupForm) : ValidationResult :=
  match signupSafeParse f with
  | .failure issues => .failure (foldIssues issues)
  | .success d => .success d

/-- The keys of the error object in a failure result. -/
def hasErrorKey (r : ValidationResult) (k : String) : Bool :=
  match r with
  | .failure errors => errors.any (fun kv => kv.1 == k)
  | .success _ => false

/-- The behaviour of the external collaborators during one signup request:
whether a user with the given email exists, and whether each side-effect
call succeeds or throws. -/
structure SignupEnv where
  userExists : String → Bool
  hashOk : Bool
  createAnalyticsOk : Bool
  createUserOk : Bool
  createAccountOk : Bool
  incAnalyticsOk : Bool
  renderOk : Bool
  sendEmailOk : Bool

/-- A collaborator call made by signUpAction, in order. -/
inductive SigEvent where
  | existsQuery (email : String)
  | hashPassword
  | createAnalyticsEv
  | createUserEv
  | createAccountEv
  | incAnalyticsEv
  | renderEmailEv
  | sendEmailEv (email : String)
deriving DecidableEq

/-- The shapes signUpAction can return: a field-scoped failure object
(`success:false, error: per-field map`), the generic catch-block failure
(`success:false, message`), the success object, or an exception escaping
the action (bcrypt.hash sits outside the try block). -/
inductive SignUpResult where
  | fieldFailure (errors : List (String × String))
  | genericFailure (message : String)
  | ok (message : String)
  | thrownOut
deriving DecidableEq

/-- Run a sequence of side-effect steps: each step either succeeds and
execution continues, or throws, ending the sequence at that step with no
further calls. -/
def runSteps : List (Bool × SigEvent) → Bool × List SigEvent
  | [] => (true, [])
  | (okStep, e) :: rest =>
    if okStep then
      let r := runSteps rest
      (r.1, e :: r.2)
    else (false, [e])

/-- The try-block side-effect sequence of lines 63-94, in program order:
createAnalytics, createUser, createAccount, incOrDecrementAnalytics,
email template render, sendEmail. -/
def step3 (env : SignupEnv) (email : String) : List (Bool × SigEvent) :=
  [(env.createAnalyticsOk, .createAnalyticsEv),
   (env.createUserOk, .createUserEv),
   (env.createAccountOk, .createAccountEv),
   (env.incAnalyticsOk, .incAnalyticsEv),
   (env.renderOk, .renderEmailEv),
   (env.sendEmailOk, .sendEmailEv email)]

/-- signUpAction (lines 43-102), with the trace of collaborator calls it
makes as second component. -/
def signUpAction (env : SignupEnv) (f : SignupForm) :
    SignUpResult × List SigEvent :=
  match validateSignupFormData f with
  | .failure errs => (.fieldFailure errs, [])
  | .success data =>
    if env.userExists data.email then
      (.fieldFailure [("email", "User already exists")],
       [.existsQuery data.email])
    else if !env.hashOk then
      (.thrownOut, [.existsQuery data.email, .hashPassword])
    else
      let r := runSteps (step3 env data.email)
      if r.1 then
        (.ok "User created successfully",
         .existsQuery data.email :: .hashPassword :: r.2)
      else
        (.genericFailure "Something went wrong, try again",
         .existsQuery data.email :: .hashPassword :: r.2)

/-! ## Helper lemmas -/

theorem toNat_ofNat_small (n : Nat) (h : n < 55296) : (Char.ofNat n).toNat = n := by
  unfold Char.ofNat
  rw [dif_pos (Or.inl (by omega))]
  simp [Char.ofNatAux, Char.toNat, UInt32.toNat, UInt32.ofNat']

theorem toUpper_toUpper (c : Char) : c.toUpper.toUpper = c.toUpper := by
  unfold Char.toUpper
  by_cases h : c.toNat ≥ 97 ∧ c.toNat ≤ 122
  · rw [if_pos h, toNat_ofNat_small _ (by omega), if_neg (by omega)]
  · rw [if_neg h, if_neg h]

theorem isWS_toUpper (c : Char) : isWS c.toUpper = isWS c := by
  unfold Char.toUpper
  by_cases h : c.toNat ≥ 97 ∧ c.toNat ≤ 122
  · rw [if_pos h]
    have h1 : (Char.ofNat (c.toNat - 32)).toNat = c.toNat - 32 :=
      toNat_ofNat_small _ (by omega)
    have hl : isWS (Char.ofNat (c.toNat - 32)) = false := by
      simp [isWS, h1]; omega
    have hr : isWS c = false := by
      simp [isWS]; omega
    rw [hl, hr]
  · rw [if_neg h]

theorem head_dropWhile_false {α : Type} {p : α → Bool} {l : List α} {x : α}
    (h : (l.dropWhile p).head? = some x) : p x = false := by
  induction l with
  | nil => simp [List.dropWhile] at h
  | cons c cs ih =>
    rw [List.dropWhile_cons] at h
    by_cases hc : p c
    · rw [if_pos hc] at h; exact ih h
    · rw [if_neg hc] at h
      simp at h
      subst h
      simp [hc]

theorem dropWhile_eq_self_of_head {α : Type} {p : α → Bool} {l : List α}
    (h : ∀ x, l.head? = some x → p x = false) : l.dropWhile p = l := by
  cases l with
  | nil => rfl
  | cons c cs =>
    rw [List.dropWhile_cons, if_neg]
    simp [h c rfl]

theorem getLast?_dropWhile {α : Type} {p : α → Bool} {l : List α}
    (h : l.dropWhile p ≠ []) : (l.dropWhile p).getLast? = l.getLast? := by
  induction l with
  | nil => simp [List.dropWhile] at h
  | cons c cs ih =>
    rw [List.dropWhile_cons]
    by_cases hc : p c
    · rw [List.dropWhile_cons, if_pos hc] at h
      rw [if_pos hc, ih h]
      cases hcs : cs with
      | nil => rw [hcs] at h; simp [List.dropWhile] at h
      | cons d ds => rw [List.getLast?_cons_cons]
    · rw [if_neg hc]

theorem trimL_head_clean {l : List Char} {c : Char} {cs : List Char}
    (h : trimL l = c :: cs) : isWS c = false := by
  unfold trimL at h
  have h1 : ((l.dropWhile isWS).reverse.dropWhile isWS).getLast? = some c := by
    rw [← List.head?_reverse, h]; rfl
  have hne : (l.dropWhile isWS).reverse.dropWhile isWS ≠ [] := by
    intro he
    rw [he] at h1
    simp at h1
  rw [getLast?_dropWhile hne, List.getLast?_reverse] at h1
  exact head_dropWhile_false h1

theorem trimL_last_clean {l : List Char} {y : Char}
    (h : (trimL l).getLast? = some y) : isWS y = false := by
  unfold trimL at h
  rw [List.getLast?_reverse] at h
  exact head_dropWhile_false h

theorem trimL_fixed {c : Char} {cs : List Char} (hh : isWS c = false)
    (hl : ∀ y, (c :: cs).getLast? = some y → isWS y = false) :
    trimL (c :: cs) = c :: cs := by
  unfold trimL
  rw [List.dropWhile_cons, if_neg (by simp [hh])]
  rw [dropWhile_eq_self_of_head, List.reverse_reverse]
  intro x hx
  rw [List.head?_reverse] at hx
  exact hl x hx

/-- Normalization of entity names is idempotent: a name that came out of
the normalization step is left unchanged by a second pass. -/
theorem normalizeL_idem {l n : List Char} (h : normalizeL l = some n) :
    normalizeL n = some n := by
  unfold normalizeL at h
  cases htr : trimL l with
  | nil => rw [htr] at h; simp [capL] at h
  | cons c cs =>
    rw [htr] at h
    simp only [capL] at h
    have hn : n = c.toUpper.toUpper :: cs := by
      cases h; rfl
    have hn2 : n = c.toUpper :: cs := by rw [hn, toUpper_toUpper]
    have hhead : isWS c.toUpper = false := by
      rw [isWS_toUpper]
      exact trimL_head_clean htr
    have hlast : ∀ y, (c.toUpper :: cs).getLast? = some y → isWS y = false := by
      intro y hy
      cases cs with
      | nil =>
        simp at hy
        rw [← hy]
        exact hhead
      | cons d ds =>
        rw [List.getLast?_cons_cons] at hy
        apply trimL_last_clean (l := l)
        rw [htr, List.getLast?_cons_cons]
        exact hy
    have htrn : trimL n = n := by
      rw [hn2]
      exact trimL_fixed hhead hlast
    unfold normalizeL
    rw [htrn, hn2]
    simp only [capL, toUpper_toUpper]

/-! ## Claim theorems: document-creation layer -/

/-- Claim C1: for every resolvable entity name and every record (a
non-null, non-array object) containing at least one key outside the
union of the schema-declared fields and "_id", validatorOneDoc fails with
the UnexpectedFields error whose message enumerates exactly the offending
keys in input order and the schema-declared keys in declaration order;
conversely, a record whose keys all lie inside that union never fails
with UnexpectedFields. -/
theorem C1_unexpected_fields (models : Registry)
    (fieldCheck : String → List String → Bool)
    (s pname : String) (fields dataKeys : List String)
    (hn : normalizeModelName s = some pname)
    (hm : models pname = some fields) :
    (findExtraKeys dataKeys (fields ++ ["_id"]) ≠ [] →
      validatorOneDoc models fieldCheck (.str s) (.obj dataKeys) =
        .errExtraKeys
          (extraKeysMsg (findExtraKeys dataKeys (fields ++ ["_id"])) fields)) ∧
    (findExtraKeys dataKeys (fields ++ ["_id"]) = [] →
      ∀ m, validatorOneDoc models fieldCheck (.str s) (.obj dataKeys) ≠
        .errExtraKeys m) := by
  simp only [validatorOneDoc, hn, hm]
  constructor
  · intro hne
    rw [if_neg (by simpa [List.isEmpty_iff] using hne)]
  · intro he m
    rw [if_pos (by simpa [List.isEmpty_iff] using he)]
    by_cases hf : fieldCheck pname dataKeys
    · rw [if_pos hf]; intro hcon; exact VResult.noConfusion hcon
    · rw [if_neg hf]; intro hcon; exact VResult.noConfusion hcon

/-- Witness for C1 at a concrete input: "user" with a record carrying the
extra key "hacker" fails with the enumerated message; the same record
without it (keys email and _id only) does not fail with UnexpectedFields. -/
theorem C1_unexpected_fields_witness :
    validatorOneDoc sampleModels (fun _ _ => true) (.str "user")
        (.obj ["email", "hacker"]) =
      .errExtraKeys ("The following keys are not allowed: hacker, " ++
        "Only firstName, lastName, email, phone are allowed") ∧
    (∀ m, validatorOneDoc sampleModels (fun _ _ => true) (.str "user")
        (.obj ["email", "_id"]) ≠ .errExtraKeys m) := by
  constructor
  · have h := (C1_unexpected_fields sampleModels (fun _ _ => true) "user" "User"
      ["firstName", "lastName", "email", "phone"] ["email", "hacker"]
      (by decide) (by decide)).1 (by decide)
    rw [h]
    decide
  · exact (C1_unexpected_fields sampleModels (fun _ _ => true) "user" "User"
      ["firstName", "lastName", "email", "phone"] ["email", "_id"]
      (by decide) (by decide)).2 (by decide)

/-- Counterexample to claim C2: with the string entity name "zebra"
(well-typed but unresolved) and a null record, validatorOneDoc returns
the UnknownEntity error, not the record TypeMismatch the claim requires
for every null record. -/
theorem C2_counterexample :
    validatorOneDoc sampleModels (fun _ _ => true) (.str "zebra") .null =
      .errUnknownModel "Zebra" ∧
    validatorOneDoc sampleModels (fun _ _ => true) (.str "zebra") .null ≠
      .errDataNotObject := by
  decide

/-- Claim C2 (amended): a non-string entity name always yields the name
TypeMismatch; a record that is null, an array or a non-object yields the
record TypeMismatch when the entity name is a string whose normalized
form resolves; when the normalized form does not resolve, the result is
UnknownEntity regardless of the record; and an entity name that trims to
the empty string throws instead of returning any structured error. -/
theorem C2_type_checks (models : Registry)
    (fieldCheck : String → List String → Bool) :
    (∀ data, validatorOneDoc models fieldCheck .nonString data =
      .errNameNotString) ∧
    (∀ s pname fields data, normalizeModelName s = some pname →
      models pname = some fields → data.isObjLike = false →
      validatorOneDoc models fieldCheck (.str s) data = .errDataNotObject) ∧
    (∀ s pname data, normalizeModelName s = some pname → models pname = none →
      validatorOneDoc models fieldCheck (.str s) data = .errUnknownModel pname) ∧
    (∀ s data, normalizeModelName s = none →
      validatorOneDoc models fieldCheck (.str s) data = .thrown) := by
  refine ⟨fun data => rfl, ?_, ?_, ?_⟩
  · intro s pname fields data hn hm hd
    simp only [validatorOneDoc, hn, hm]
    cases data with
    | obj keys => simp [JSData.isObjLike] at hd
    | null => rfl
    | array => rfl
    | nonObject => rfl
  · intro s pname data hn hm
    simp only [validatorOneDoc, hn, hm]
  · intro s data hn
    simp only [validatorOneDoc, hn]

/-- Witness for C2 (amended) at concrete inputs. -/
theorem C2_type_checks_witness :
    validatorOneDoc sampleModels (fun _ _ => true) .nonString .null =
      .errNameNotString ∧
    validatorOneDoc sampleModels (fun _ _ => true) (.str "user") .array =
      .errDataNotObject ∧
    validatorOneDoc sampleModels (fun _ _ => true) (.str "zzz") (.obj []) =
      .errUnknownModel "Zzz" ∧
    validatorOneDoc sampleModels (fun _ _ => true) (.str "  ") (.obj []) =
      .thrown := by
  refine ⟨(C2_type_checks sampleModels (fun _ _ => true)).1 .null, ?_, ?_, ?_⟩
  · exact (C2_type_checks sampleModels (fun _ _ => true)).2.1 "user" "User"
      ["firstName", "lastName", "email", "phone"] .array
      (by decide) (by decide) (by decide)
  · exact (C2_type_checks sampleModels (fun _ _ => true)).2.2.1 "zzz" "Zzz"
      (.obj []) (by decide) (by decide)
  · exact (C2_type_checks sampleModels (fun _ _ => true)).2.2.2 "  "
      (.obj []) (by decide)

/-- Claim C3: createManyDocs performs no per-record validation, issues
exactly one batch insert to the storage collaborator, and on success
returns one identifier per input document, in the order the storage
collaborator reports them (`hlen` is the storage collaborator's contract
of one inserted id per insertOne operation). -/
theorem C3_bulk_create {α : Type} (models : Registry)
    (bulk : String → List (InsertOneOp α) → Option (List Nat))
    (modelName : String) (dataArr : List α)
    (schema : List String) (ids : List Nat)
    (hm : models (capName modelName) = some schema)
    (hb : bulk (capName modelName)
      (dataArr.map (fun doc => InsertOneOp.mk doc)) = some ids)
    (hlen : ids.length = dataArr.length) :
    createManyDocs models bulk modelName dataArr =
      (.ok (ids.map Nat.repr),
       [.bulkWrite (capName modelName)
          (dataArr.map (fun doc => InsertOneOp.mk doc))]) ∧
    (ids.map Nat.repr).length = dataArr.length := by
  constructor
  · simp only [createManyDocs, hm, hb]
  · rw [List.length_map]
    exact hlen

/-- Witness for C3: three booking records yield exactly three identifiers
in the collaborator's reported order, via one bulkWrite call. -/
theorem C3_bulk_create_witness :
    createManyDocs sampleModels
        (fun _ ops => some (List.range ops.length)) "booking " ["a", "b", "c"] =
      (.ok ["0", "1", "2"],
       [.bulkWrite "Booking"
          [InsertOneOp.mk "a", InsertOneOp.mk "b", InsertOneOp.mk "c"]]) ∧
    (["0", "1", "2"] : List String).length = (["a", "b", "c"] : List String).length := by
  have h := C3_bulk_create sampleModels
    (fun _ ops => some (List.range ops.length)) "booking " ["a", "b", "c"]
    ["userId", "flights", "hotels"] [0, 1, 2]
    (by decide) (by decide) (by decide)
  exact ⟨h.1.trans (by decide), by decide⟩

/-- Counterexample to claim C4: "user" and "usEr" differ only in letter
case, yet the schema lookup step resolves "user" while "usEr" normalizes
to "UsEr" and resolves to nothing — only the first letter is
case-normalized. -/
theorem C4_counterexample :
    "user".data.map Char.toUpper = "usEr".data.map Char.toUpper ∧
    lookupSchema sampleModels "user" ≠ lookupSchema sampleModels "usEr" := by
  decide

/-- Two names differ only in surrounding whitespace and/or the case of
the first letter of their trimmed forms. -/
def eqUpToLeadCaseWS (s t : String) : Bool :=
  match trimL s.data, trimL t.data with
  | [], [] => true
  | c :: cs, d :: ds => decide (c.toUpper = d.toUpper) && decide (cs = ds)
  | _, _ => false

/-- Claim C4 (amended): entity names that differ only in surrounding
whitespace and/or the case of the first letter resolve to the same
schema, and normalization is idempotent; names differing in the case of
any later letter are not covered (see the counterexample). -/
theorem C4_normalization (models : Registry) (s t : String)
    (h : eqUpToLeadCaseWS s t = true) :
    lookupSchema models s = lookupSchema models t ∧
    (∀ n, normalizeModelName s = some n → normalizeModelName n = some n) := by
  have hnorm : normalizeModelName s = normalizeModelName t := by
    unfold eqUpToLeadCaseWS at h
    unfold normalizeModelName normalizeL
    cases hs : trimL s.data with
    | nil =>
      cases ht : trimL t.data with
      | nil => rfl
      | cons d ds => rw [hs, ht] at h; simp at h
    | cons c cs =>
      cases ht : trimL t.data with
      | nil => rw [hs, ht] at h; simp at h
      | cons d ds =>
        rw [hs, ht] at h
        simp at h
        simp only [capL, h.1, h.2]
  constructor
  · unfold lookupSchema
    rw [hnorm]
  · intro n hn
    unfold normalizeModelName at hn ⊢
    cases hl : normalizeL s.data with
    | none => rw [hl] at hn; simp at hn
    | some m =>
      rw [hl] at hn
      simp at hn
      have hidem := normalizeL_idem hl
      have hdata : n.data = m := by rw [← hn]
      rw [hdata, hidem]
      simp [hn]

/-- Witness for C4 (amended): " user" and "User " resolve identically,
and re-normalizing the resolved name "User" is a no-op. -/
theorem C4_normalization_witness :
    eqUpToLeadCaseWS " user" "User " = true ∧
    lookupSchema sampleModels " user" = lookupSchema sampleModels "User " ∧
    normalizeModelName "User" = some "User" := by
  have h := C4_normalization sampleModels " user" "User " (by decide)
  exact ⟨by decide, h.1, h.2 "User" (by decide)⟩

/-- Claim C10: an entity name that is empty or whitespace-only makes
createOneDoc throw the TypeError raised while indexing the first
character of the empty normalized name, instead of throwing the
structured "is not a valid model" Error value. -/
theorem C10_empty_name_throws (models : Registry)
    (fieldCheck saveOk : String → List String → Bool)
    (s : String) (data : JSData) (h : trimL s.data = []) :
    createOneDoc models fieldCheck saveOk (.str s) data = .threwException ∧
    (∀ e, createOneDoc models fieldCheck saveOk (.str s) data ≠
      .threwValidatorError e) := by
  have hv : validatorOneDoc models fieldCheck (.str s) data = .thrown := by
    simp [validatorOneDoc, normalizeModelName, normalizeL, h, capL]
  constructor
  · simp only [createOneDoc, hv]
  · intro e
    simp only [createOneDoc, hv]
    intro hcon
    exact CreateOneResult.noConfusion hcon

/-- Witness for C10: the whitespace-only name "   " throws. -/
theorem C10_empty_name_throws_witness :
    createOneDoc sampleModels (fun _ _ => true) (fun _ _ => true)
        (.str "   ") (.obj []) = .threwException ∧
    (∀ e, createOneDoc sampleModels (fun _ _ => true) (fun _ _ => true)
        (.str "   ") (.obj []) ≠ .threwValidatorError e) :=
  C10_empty_name_throws sampleModels (fun _ _ => true) (fun _ _ => true)
    "   " (.obj []) (by decide)

/-! ## Helper lemmas for the signup layer -/

theorem runSteps_fail (l : List (Bool × SigEvent))
    (h : l.any (fun p => !p.1) = true) :
    runSteps l =
      (false, (l.takeWhile Prod.fst).map Prod.snd ++
        ((l.dropWhile Prod.fst).map Prod.snd).take 1) := by
  induction l with
  | nil => simp at h
  | cons p rest ih =>
    cases p with
    | mk okStep e =>
      cases okStep with
      | true =>
        simp only [List.any_cons, Bool.not_true, Bool.false_or] at h
        simp only [runSteps, if_pos, List.takeWhile_cons, List.dropWhile_cons]
        rw [ih h]
        simp
      | false =>
        simp only [runSteps, List.takeWhile_cons, List.dropWhile_cons]
        simp

theorem mem_keys_setKey (m : List (String × String)) (k v k2 : String) :
    k2 ∈ (setKey m k v).map Prod.fst ↔ k2 ∈ m.map Prod.fst ∨ k2 = k := by
  induction m with
  | nil => simp [setKey]
  | cons p rest ih =>
    cases p with
    | mk pk pv =>
      by_cases hk : pk = k
      · subst hk
        simp [setKey]
        tauto
      · simp only [setKey, if_neg hk, List.map_cons, List.mem_cons, ih]
        tauto

theorem keys_foldl_setKey (issues m : List (String × String)) (k : String) :
    (k ∈ (issues.foldl (fun acc kv => setKey acc kv.1 kv.2) m).map Prod.fst) ↔
      (k ∈ m.map Prod.fst ∨ k ∈ issues.map Prod.fst) := by
  induction issues generalizing m with
  | nil => simp
  | cons kv rest ih =>
    simp only [List.foldl_cons, List.map_cons, List.mem_cons]
    rw [ih, mem_keys_setKey]
    tauto

theorem hasErrorKey_failure (m : List (String × String)) (k : String) :
    hasErrorKey (.failure m) k = true ↔ k ∈ m.map Prod.fst := by
  simp [hasErrorKey, List.any_eq_true, List.mem_map]

theorem hasErrorKey_foldIssues (issues : List (String × String)) (k : String) :
    hasErrorKey (.failure (foldIssues issues)) k = true ↔
      k ∈ issues.map Prod.fst := by
  rw [hasErrorKey_failure]
  unfold foldIssues
  rw [keys_foldl_setKey]
  simp

theorem emailIssues_key (f : SignupForm) (kv : String × String)
    (h : kv ∈ emailIssues f) : kv.1 = "email" := by
  cases hf : f.email with
  | none => simp [emailIssues, hf] at h; simp [h]
  | some s =>
    simp only [emailIssues, hf, List.mem_append] at h
    rcases h with h | h
    · by_cases hc : (trimL s.data).isEmpty
      · rw [if_pos hc] at h; simp at h; simp [h]
      · rw [if_neg hc] at h; simp at h
    · by_cases hc : validEmail (trimL s.data)
      · rw [if_pos hc] at h; simp at h
      · rw [if_neg hc] at h; simp at h; simp [h]

theorem passwordIssues_key (f : SignupForm) (kv : String × String)
    (h : kv ∈ passwordIssues f) : kv.1 = "password" := by
  cases hf : f.password with
  | none => simp [passwordIssues, hf] at h; simp [h]
  | some s =>
    simp only [passwordIssues, hf] at h
    by_cases hc : s.length < 8
    · rw [if_pos hc] at h; simp at h; simp [h]
    · rw [if_neg hc] at h; simp at h

theorem confirmPasswordIssues_key (f : SignupForm) (kv : String × String)
    (h : kv ∈ confirmPasswordIssues f) : kv.1 = "confirmPassword" := by
  cases hf : f.confirmPassword with
  | none => simp [confirmPasswordIssues, hf] at h; simp [h]
  | some s =>
    simp only [confirmPasswordIssues, hf] at h
    by_cases hc : s.length < 1
    · rw [if_pos hc] at h; simp at h; simp [h]
    · rw [if_neg hc] at h; simp at h

theorem firstnameIssues_key (f : SignupForm) (kv : String × String)
    (h : kv ∈ firstnameIssues f) : kv.1 = "firstname" := by
  cases hf : f.firstname with
  | none => simp [firstnameIssues, hf] at h; simp [h]
  | some s =>
    simp only [firstnameIssues, hf] at h
    by_cases hc : (trimL s.data).isEmpty
    · rw [if_pos hc] at h; simp at h; simp [h]
    · rw [if_neg hc] at h; simp at h

theorem lastnameIssues_key (f : SignupForm) (kv : String × String)
    (h : kv ∈ lastnameIssues f) : kv.1 = "lastname" := by
  cases hf : f.lastname with
  | none => simp [lastnameIssues, hf] at h; simp [h]
  | some s =>
    simp only [lastnameIssues, hf] at h
    by_cases hc : (trimL s.data).isEmpty
    · rw [if_pos hc] at h; simp at h; simp [h]
    · rw [if_neg hc] at h; simp at h

theorem phoneNumberCheck_key (fields : List (String × JVal))
    (kv : String × String) (h : kv ∈ (phoneNumberCheck fields).1) :
    kv.1 = "phone" := by
  cases hl : lookupJ "number" fields with
  | none => simp [phoneNumberCheck, hl] at h; simp [h]
  | some jv =>
    cases jv with
    | jother b => simp [phoneNumberCheck, hl] at h; simp [h]
    | jstr s =>
      simp only [phoneNumberCheck, hl] at h
      by_cases hc : !(trimL s.data).isEmpty && (trimL s.data).all Char.isDigit
      · rw [if_pos hc] at h; simp at h
      · rw [if_neg hc] at h; simp at h; simp [h]

theorem phoneDialCheck_key (fields : List (String × JVal))
    (kv : String × String) (h : kv ∈ (phoneDialCheck fields).1) :
    kv.1 = "phone" := by
  cases hl : lookupJ "dialCode" fields with
  | none => simp [phoneDialCheck, hl] at h; simp [h]
  | some jv =>
    cases jv with
    | jother b => simp [phoneDialCheck, hl] at h; simp [h]
    | jstr s =>
      simp only [phoneDialCheck, hl] at h
      by_cases hc : (trimL s.data).isEmpty
      · rw [if_pos hc] at h; simp at h; simp [h]
      · rw [if_neg hc] at h; simp at h

theorem phoneParse_key (f : SignupForm) (kv : String × String)
    (h : kv ∈ (phoneParse f).1) : kv.1 = "phone" := by
  cases hd : decodePhone f.phone with
  | none => simp [phoneParse, hd] at h
  | some fields =>
    simp only [phoneParse, hd] at h
    cases hn2 : (phoneNumberCheck fields).2 <;>
      cases hd2 : (phoneDialCheck fields).2 <;>
      simp only [hn2, hd2, List.mem_append] at h <;>
      (rcases h with h | h
       · exact phoneNumberCheck_key fields kv h
       · exact phoneDialCheck_key fields kv h)

theorem acceptTermsIssues_key (f : SignupForm) (kv : String × String)
    (h : kv ∈ acceptTermsIssues f) : kv.1 = "acceptTerms" := by
  cases hf : f.acceptTerms with
  | none => simp [acceptTermsIssues, hf] at h; simp [h]
  | some s =>
    simp only [acceptTermsIssues, hf] at h
    by_cases hc : containsSub ['o', 'n'] s.data
    · rw [if_pos hc] at h; simp at h
    · rw [if_neg hc] at h; simp at h; simp [h]

/-- An issue keyed "acceptTerms" can only come from the acceptTerms field. -/
theorem acceptTerms_key_source (f : SignupForm)
    (h : "acceptTerms" ∈ (baseIssues f).map Prod.fst) :
    acceptTermsIssues f ≠ [] := by
  intro hempty
  rw [List.mem_map] at h
  rcases h with ⟨kv, hmem, hk⟩
  simp only [baseIssues, nonPhoneIssues, List.append_assoc,
    List.mem_append] at hmem
  rcases hmem with h1 | h2 | h3 | h4 | h5 | h6 | h7
  · rw [emailIssues_key f kv h1] at hk; exact absurd hk (by decide)
  · rw [passwordIssues_key f kv h2] at hk; exact absurd hk (by decide)
  · rw [confirmPasswordIssues_key f kv h3] at hk; exact absurd hk (by decide)
  · rw [firstnameIssues_key f kv h4] at hk; exact absurd hk (by decide)
  · rw [lastnameIssues_key f kv h5] at hk; exact absurd hk (by decide)
  · rw [hempty] at h6; simp at h6
  · rw [phoneParse_key f kv h7] at hk; exact absurd hk (by decide)

/-- The refinement's issue, when any, is keyed confirmPassword. -/
theorem refineIssues_key (f : SignupForm) (kv : String × String)
    (h : kv ∈ refineIssues f) : kv.1 = "confirmPassword" := by
  unfold refineIssues at h
  by_cases hpw : (signupOutput f).password = (signupOutput f).confirmPassword
  · rw [if_pos hpw] at h; simp at h
  · rw [if_neg hpw] at h; simp at h; simp [h]

/-! ## Claim theorems: signup workflow -/

/-- A concrete submission that passes all validation. -/
def validForm : SignupForm :=
  { email := some "a@b.com", password := some "abcdefgh",
    confirmPassword := some "abcdefgh", firstname := some "John",
    lastname := some "Doe", acceptTerms := some "on", phone := .absent }

/-- Claim C5: when validation passes but the email already exists, the
action returns the field-scoped duplicate error and the trace contains
only the existence query — no hashing, analytics, user or account
creation, and no email dispatch. -/
theorem C5_duplicate_email (env : SignupEnv) (f : SignupForm)
    (d : SignupData)
    (hv : validateSignupFormData f = .success d)
    (hex : env.userExists d.email = true) :
    signUpAction env f =
      (.fieldFailure [("email", "User already exists")],
       [.existsQuery d.email]) := by
  simp only [signUpAction, hv, hex, if_true]

/-- Witness for C5 at a concrete duplicate submission. -/
theorem C5_duplicate_email_witness :
    signUpAction
        ⟨fun _ => true, true, true, true, true, true, true, true⟩ validForm =
      (.fieldFailure [("email", "User already exists")],
       [.existsQuery "a@b.com"]) := by
  have h := C5_duplicate_email
    ⟨fun _ => true, true, true, true, true, true, true, true⟩ validForm
    (signupOutput validForm) (by decide) (by decide)
  exact h.trans (by decide)

/-- Claim C6: when validation and the duplicate check pass but some step
of the try-block side-effect sequence throws, the action returns the
generic message-only failure, and the trace ends exactly at the first
failing step — the already-completed steps are not compensated or rolled
back by any further call. -/
theorem C6_step3_failure (env : SignupEnv) (f : SignupForm) (d : SignupData)
    (hv : validateSignupFormData f = .success d)
    (hex : env.userExists d.email = false)
    (hh : env.hashOk = true)
    (hfail : (step3 env d.email).any (fun p => !p.1) = true) :
    signUpAction env f =
      (.genericFailure "Something went wrong, try again",
       .existsQuery d.email :: .hashPassword ::
         (((step3 env d.email).takeWhile Prod.fst).map Prod.snd ++
          (((step3 env d.email).dropWhile Prod.fst).map Prod.snd).take 1)) := by
  have hr := runSteps_fail (step3 env d.email) hfail
  simp only [signUpAction, hv, hex, hh, Bool.not_true, Bool.false_eq_true,
    if_false, hr]

/-- Witness for C6: createUser throws after createAnalytics succeeded;
the result is the generic failure and the trace stops at createUser. -/
theorem C6_step3_failure_witness :
    signUpAction
        ⟨fun _ => false, true, true, false, true, true, true, true⟩ validForm =
      (.genericFailure "Something went wrong, try again",
       [.existsQuery "a@b.com", .hashPassword, .createAnalyticsEv,
        .createUserEv]) := by
  have h := C6_step3_failure
    ⟨fun _ => false, true, true, false, true, true, true, true⟩ validForm
    (signupOutput validForm) (by decide) (by decide) (by decide) (by decide)
  exact h.trans (by decide)

/-- A submission with a missing email field and unequal passwords. -/
def c7Form : SignupForm :=
  { email := none, password := some "abcdefgh",
    confirmPassword := some "differs1", firstname := some "John",
    lastname := some "Doe", acceptTerms := some "on", phone := .absent }

/-- Counterexample to claim C7: this submission has password ≠
confirmPassword, yet the failure's error map has no confirmPassword entry
(only the email Required entry), because the missing email field aborts
the zod object parse and the `.refine` equality check never runs. -/
theorem C7_counterexample :
    c7Form.password ≠ c7Form.confirmPassword ∧
    validateSignupFormData c7Form = .failure [("email", "Required")] ∧
    hasErrorKey (validateSignupFormData c7Form) "confirmPassword" = false := by
  refine ⟨by decide, by decide, by decide⟩

/-- Claim C7 (amended): for every submission whose parse is not aborted
(every declared field is present as a string, and a decoded phone object
has string number and dialCode values — failing string checks only make
the parse dirty and do not disable the refinement), unequal password and
confirmPassword yield a failure whose error map contains an entry at the
confirmPassword key. -/
theorem C7_password_mismatch (f : SignupForm)
    (hab : anyAborted f = false)
    (hneq : (signupOutput f).password ≠ (signupOutput f).confirmPassword) :
    hasErrorKey (validateSignupFormData f) "confirmPassword" = true := by
  have hri : refineIssues f = [("confirmPassword", "Passwords do not match")] := by
    simp [refineIssues, hneq]
  have hne : (baseIssues f ++ refineIssues f).isEmpty = false := by
    rw [hri]
    simp
  simp only [validateSignupFormData, signupSafeParse, hab, Bool.false_eq_true,
    if_false, hne]
  apply (hasErrorKey_foldIssues (baseIssues f ++ refineIssues f)
    "confirmPassword").mpr
  rw [hri, List.map_append, List.mem_append]
  right
  simp

/-- Witness for C7 (amended): the email is present but fails its format
check (a dirty, not aborted, parse), and the unequal passwords still
produce the confirmPassword entry because the refinement runs. -/
theorem C7_password_mismatch_witness :
    hasErrorKey
      (validateSignupFormData
        { validForm with email := some "", confirmPassword := some "differs1" })
      "confirmPassword" = true :=
  C7_password_mismatch
    { validForm with email := some "", confirmPassword := some "differs1" }
    (by decide) (by decide)

/-- Claim C8: an otherwise-valid submission whose phone field decodes to
a JSON object none of whose values is truthy (the empty-object JSON text
submission decodes to the empty such object) validates successfully, with
the phone field absent from the parsed output. -/
theorem C8_falsy_phone (f : SignupForm) (fields : List (String × JVal))
    (hp : f.phone = .jsonObj fields)
    (hfalsy : fields.any (fun kv => kv.2.truthy) = false)
    (hbase : nonPhoneIssues f = [])
    (heq : (signupOutput f).password = (signupOutput f).confirmPassword) :
    validateSignupFormData f = .success (signupOutput f) ∧
    (signupOutput f).phone = none := by
  have hdec : decodePhone f.phone = none := by
    rw [hp]
    simp [decodePhone, hfalsy]
  have hpp : phoneParse f = ([], none) := by
    simp only [phoneParse, hdec]
  have hbi : baseIssues f = [] := by
    simp [baseIssues, hbase, hpp]
  obtain ⟨he, hpw, hcp, hfn, hln, hat⟩ : emailIssues f = [] ∧
      passwordIssues f = [] ∧ confirmPasswordIssues f = [] ∧
      firstnameIssues f = [] ∧ lastnameIssues f = [] ∧
      acceptTermsIssues f = [] := by
    simpa [nonPhoneIssues, List.append_eq_nil] using hbase
  have hemail : f.email.isNone = false := by
    cases hf : f.email with
    | none => simp [emailIssues, hf] at he
    | some s => simp [hf]
  have hpass : f.password.isNone = false := by
    cases hf : f.password with
    | none => simp [passwordIssues, hf] at hpw
    | some s => simp [hf]
  have hconf : f.confirmPassword.isNone = false := by
    cases hf : f.confirmPassword with
    | none => simp [confirmPasswordIssues, hf] at hcp
    | some s => simp [hf]
  have hfirst : f.firstname.isNone = false := by
    cases hf : f.firstname with
    | none => simp [firstnameIssues, hf] at hfn
    | some s => simp [hf]
  have hlast : f.lastname.isNone = false := by
    cases hf : f.lastname with
    | none => simp [lastnameIssues, hf] at hln
    | some s => simp [hf]
  have hterms : f.acceptTerms.isNone = false := by
    cases hf : f.acceptTerms with
    | none => simp [acceptTermsIssues, hf] at hat
    | some s => simp [hf]
  have hab : anyAborted f = false := by
    simp [anyAborted, hemail, hpass, hconf, hfirst, hlast, hterms, hdec]
  have hri : refineIssues f = [] := by
    simp [refineIssues, heq]
  constructor
  · simp [validateSignupFormData, signupSafeParse, hab, hbi, hri]
  · simp [signupOutput, hpp]

/-- Witness for C8: the empty-object JSON text parses to the empty
object, which decodes to an absent phone. -/
theorem C8_falsy_phone_witness :
    validateSignupFormData { validForm with phone := .jsonObj [] } =
      .success (signupOutput { validForm with phone := .jsonObj [] }) ∧
    (signupOutput { validForm with phone := .jsonObj [] }).phone = none :=
  C8_falsy_phone { validForm with phone := .jsonObj [] } []
    rfl (by decide) (by decide) (by decide)

/-- Claim C9: the acceptTerms check passes exactly when "on" occurs as a
substring anywhere in the field value (for example in "none"); only a
value with no occurrence yields the terms-acceptance error, which then
appears at the acceptTerms key of the failure result. -/
theorem C9_accept_terms (f : SignupForm) (s : String)
    (hacc : f.acceptTerms = some s) :
    (containsSub ['o', 'n'] s.data = true →
      acceptTermsIssues f = [] ∧
      hasErrorKey (validateSignupFormData f) "acceptTerms" = false) ∧
    (containsSub ['o', 'n'] s.data = false →
      acceptTermsIssues f =
        [("acceptTerms", "You must accept the terms and conditions")] ∧
      hasErrorKey (validateSignupFormData f) "acceptTerms" = true) := by
  constructor
  · intro hon
    have hterms : acceptTermsIssues f = [] := by
      simp [acceptTermsIssues, hacc, hon]
    refine ⟨hterms, ?_⟩
    have hnotbase : "acceptTerms" ∉ (baseIssues f).map Prod.fst := fun h =>
      acceptTerms_key_source f h hterms
    have hnotall :
        "acceptTerms" ∉ ((baseIssues f ++ refineIssues f)).map Prod.fst := by
      rw [List.map_append, List.mem_append]
      rintro (h | h)
      · exact hnotbase h
      · rw [List.mem_map] at h
        rcases h with ⟨kv, hmem, hk⟩
        rw [refineIssues_key f kv hmem] at hk
        exact absurd hk (by decide)
    by_cases hab : anyAborted f = true
    · simp only [validateSignupFormData, signupSafeParse, hab, if_true]
      rw [Bool.eq_false_iff]
      intro htrue
      exact hnotbase
        ((hasErrorKey_foldIssues (baseIssues f) "acceptTerms").mp htrue)
    · simp only [validateSignupFormData, signupSafeParse, if_neg hab]
      by_cases he : (baseIssues f ++ refineIssues f).isEmpty = true
      · simp only [if_pos he]
        rfl
      · simp only [if_neg he]
        rw [Bool.eq_false_iff]
        intro htrue
        exact hnotall
          ((hasErrorKey_foldIssues (baseIssues f ++ refineIssues f)
            "acceptTerms").mp htrue)
  · intro hoff
    have hterms : acceptTermsIssues f =
        [("acceptTerms", "You must accept the terms and conditions")] := by
      simp [acceptTermsIssues, hacc, hoff]
    refine ⟨hterms, ?_⟩
    have hmem : "acceptTerms" ∈ (baseIssues f).map Prod.fst := by
      rw [List.mem_map]
      refine ⟨("acceptTerms", "You must accept the terms and conditions"),
        ?_, rfl⟩
      simp [baseIssues, nonPhoneIssues, hterms]
    have hbne : baseIssues f ≠ [] := by
      intro h0
      rw [h0] at hmem
      simp at hmem
    by_cases hab : anyAborted f = true
    · simp only [validateSignupFormData, signupSafeParse, hab, if_true]
      exact (hasErrorKey_foldIssues (baseIssues f) "acceptTerms").mpr hmem
    · have hne : (baseIssues f ++ refineIssues f).isEmpty = false := by
        cases hb : baseIssues f with
        | nil => exact absurd hb hbne
        | cons x xs => simp [hb]
      simp only [validateSignupFormData, signupSafeParse, if_neg hab, hne,
        Bool.false_eq_true, if_false]
      apply (hasErrorKey_foldIssues (baseIssues f ++ refineIssues f)
        "acceptTerms").mpr
      rw [List.map_append, List.mem_append]
      left
      exact hmem

/-- Witness for C9: "none" contains "on" and passes; "off" does not and
produces the acceptTerms error. -/
theorem C9_accept_terms_witness :
    hasErrorKey
      (validateSignupFormData { validForm with acceptTerms := some "none" })
      "acceptTerms" = false ∧
    hasErrorKey
      (validateSignupFormData { validForm with acceptTerms := some "off" })
      "acceptTerms" = true :=
  ⟨((C9_accept_terms { validForm with acceptTerms := some "none" } "none"
      rfl).1 (by decide)).2,
   ((C9_accept_terms { validForm with acceptTerms := some "off" } "off"
      rfl).2 (by decide)).2⟩

end Booking
